import Mathlib

/-!
# FlowKit: a shallow embedding of the flow-executor core

This file embeds, in Lean, the parts of the FlowKit repository that the
verified properties concern:

* the Flow / Node / FlowControlBlock data model and step machinery of
  `FlowKitControlUint` (`controlunit/fcb/flow.py`, `controlunit/fcb/node.py`,
  `controlunit/fcb/flow_control_block.py`, `controlunit/fcb_queue.py`,
  `main.py`);
* the secret resolver of the Node Runner
  (`node_runner/task_manager/node.py`, `Node.resolve_secrets`);
* the trace recorder's sequence assignment (`FlowTraceMonitor/main.py`,
  `save_trace`).

Python dictionaries are modelled as association lists preserving insertion
order; opaque Python objects (`Dict[str, Any]` payloads that the code under
study never inspects) are modelled by the small JSON-like type `PyObj`.
Fallible Python code (raising) is modelled with `Except`; calls out to HTTP
are modelled by passing the outcome of the call as an explicit argument.
-/

set_option maxHeartbeats 1000000

namespace FlowKit

/-! ## Python-value model and association-list (dict) helpers -/

/-- A JSON-like value standing in for Python `Any` payloads (node inputs and
outputs).  The embedded code never inspects these values; it only moves them
around, and constructs the empty dict `{}` in failure paths. -/
inductive PyObj : Type where
  | str (s : String)
  | int (n : Int)
  | boolean (b : Bool)
  | dict (kvs : List (String × PyObj))
  | arr (vs : List PyObj)
  | null

/-- The empty Python dict `\x7b\x7d`. -/
def emptyDict : PyObj := .dict []

/-- `d.get(key)` on a Python dict modelled as an insertion-ordered
association list (first binding wins, as keys are unique in a dict). -/
def alookup {α : Type} : List (String × α) → String → Option α
  | [], _ => none
  | (k, v) :: rest, key => if k = key then some v else alookup rest key

/-- `d[key] = v` / Mongo `update_one(..., upsert=True)`: replace the first
binding of `key`, or append a new one. -/
def aupsert {α : Type} : List (String × α) → String → α → List (String × α)
  | [], key, v => [(key, v)]
  | (k, w) :: rest, key, v =>
    if k = key then (k, v) :: rest else (k, w) :: aupsert rest key v

/-- `d.pop(key, None)` / Mongo `delete_one`: drop the first binding of
`key`, if any. -/
def aremove {α : Type} : List (String × α) → String → List (String × α)
  | [], _ => []
  | (k, w) :: rest, key => if k = key then rest else (k, w) :: aremove rest key

/-! ## Data model: Node, Flow (controlunit/fcb/node.py, flow.py) -/

/-- `controlunit.fcb.node.Node` (node.py lines 27-32): name, base64 code
blob, and integer nesting level. -/
structure Node : Type where
  name : String
  code : String
  flow_lvl : Int
deriving DecidableEq, Repr

/-- `Node.to_dict()` output (node.py lines 126-132). -/
structure NodeDict : Type where
  name : String
  code : String
  flow_lvl : Int
deriving DecidableEq, Repr

def Node.to_dict (n : Node) : NodeDict := ⟨n.name, n.code, n.flow_lvl⟩

/-- Reconstruction `Node(name, code, flow_lvl)` from a stored dict, as done
by `recover_from_storage` (fcb_queue.py lines 32-50). -/
def nodeOfDict (d : NodeDict) : Node := ⟨d.name, d.code, d.flow_lvl⟩

/-- `controlunit.fcb.flow.Flow` (flow.py lines 7-11): a name-keyed dict of
nodes plus the pointer `(curr_node, curr_inp_data)`. -/
structure Flow : Type where
  nodes : List (String × Node)
  curr_inp_data : PyObj
  curr_node : Option Node

/-- `Flow.set_pointer` (flow.py lines 14-21): sets the pointer if the
node's name is a key of `nodes`, otherwise raises `ValueError`. -/
def Flow.set_pointer (f : Flow) (node : Node) (inp : PyObj) : Except String Flow :=
  if (alookup f.nodes node.name).isSome then
    .ok { f with curr_node := some node, curr_inp_data := inp }
  else
    .error ("Node with name " ++ node.name ++ " not present in flow")

/-- `Flow.to_dict()` (flow.py lines 31-38): the persisted flow document. -/
structure FlowDict : Type where
  nodes : List (String × NodeDict)
  curr_inp_data : PyObj
  curr_node : Option NodeDict

def Flow.to_dict (f : Flow) : FlowDict :=
  { nodes := f.nodes.map (fun p => (p.1, Node.to_dict p.2)),
    curr_inp_data := f.curr_inp_data,
    curr_node := f.curr_node.map Node.to_dict }

/-- Flow reconstruction from a persisted document, as in
`recover_from_storage` (fcb_queue.py lines 30-52): no membership check is
performed on `curr_node`. -/
def flowOfDict (d : FlowDict) : Flow :=
  { nodes := d.nodes.map (fun p => (p.1, nodeOfDict p.2)),
    curr_inp_data := d.curr_inp_data,
    curr_node := d.curr_node.map nodeOfDict }

/-- The pointer invariant claimed by the spec for `Flow`: if `curr_node` is
not `None` then its name is a key of `nodes`. -/
def flowInvB (f : Flow) : Bool :=
  match f.curr_node with
  | none => true
  | some n => (alookup f.nodes n.name).isSome

/-! ## Node dispatch (controlunit/fcb/node.py, Node.run) -/

/-- `NodeOutputs` pydantic model (node.py lines 10-14). -/
structure NodeOutputs : Type where
  nodes : List String
  outputs : PyObj
  status : String
  message : String

/-- `NodeExecutionData` pydantic model (node.py lines 17-24).  Its required
fields are `node_name, runner_id, code, status, inputs, logs, outputs`. -/
structure NodeExecutionData : Type where
  node_name : String
  runner_id : String
  code : String
  status : String
  inputs : PyObj
  logs : List String
  outputs : NodeOutputs

/-- Python exceptions distinguished by the embedding. -/
inductive PyError : Type where
  | validationError (msg : String)
  | valueError (msg : String)
  | attributeError (msg : String)
deriving DecidableEq, Repr

/-- The required field names of the pydantic model `NodeExecutionData`
(node.py lines 17-24). -/
def nedRequiredFields : List String :=
  ["node_name", "runner_id", "code", "status", "inputs", "logs", "outputs"]

/-- The keyword names passed to `NodeExecutionData(...)` at the success
site of `Node.run` (node.py lines 74-82). -/
def runSuccessKwargs : List String :=
  ["node_name", "runner_id", "code", "status", "inputs", "logs", "outputs"]

/-- The keyword names passed to `NodeExecutionData(...)` at the three
failure sites of `Node.run` (node.py lines 88-96, 102-110, 116-124).  Note
that these sites pass `code_base64=` where the model requires `code`. -/
def runFailureKwargs : List String :=
  ["node_name", "runner_id", "code_base64", "status", "inputs", "logs", "outputs"]

/-- Pydantic validation: constructing a model succeeds only when every
required field name is among the provided keyword names (extra keywords are
ignored; a missing required field raises `ValidationError`). -/
def pydanticAccepts (provided : List String) : Bool :=
  nedRequiredFields.all (fun f => provided.contains f)

/-- Outcome of the HTTP POST to the Node Runner made by `Node.run`
(node.py lines 59-62), passed explicitly to the embedding. -/
inductive RunOutcome : Type where
  | success (outs : NodeOutputs)
  | httpStatusError (code : Nat) (body : String)
  | requestError (msg : String)

/-- `Node.run` (node.py lines 42-124).  On a 2xx response it builds a
`NodeExecutionData` with `status = "success"`.  On `HTTPStatusError`,
`RequestError`, or any other exception it builds the failure value — but
those construction sites pass the keyword `code_base64` instead of the
required field `code`, which pydantic validation rejects. -/
def Node.run (node : Node) (inputs : PyObj) (runner_id : String)
    (outcome : RunOutcome) : Except PyError NodeExecutionData :=
  let logs0 : List String := ["Node initialized with runner ID " ++ runner_id ++ "."]
  match outcome with
  | .success outs =>
    if pydanticAccepts runSuccessKwargs then
      .ok { node_name := node.name, runner_id := runner_id, code := node.code,
            status := "success", inputs := inputs,
            logs := logs0 ++ ["Node executed successfully."], outputs := outs }
    else .error (.validationError "NodeExecutionData: field required: code")
  | .httpStatusError c _body =>
    if pydanticAccepts runFailureKwargs then
      .ok { node_name := node.name, runner_id := runner_id, code := node.code,
            status := "failed", inputs := inputs,
            logs := logs0 ++ ["HTTP error " ++ toString c],
            outputs := { nodes := [], outputs := emptyDict, status := "error",
                         message := "HTTP error " ++ toString c } }
    else .error (.validationError "NodeExecutionData: field required: code")
  | .requestError msg =>
    if pydanticAccepts runFailureKwargs then
      .ok { node_name := node.name, runner_id := runner_id, code := node.code,
            status := "failed", inputs := inputs,
            logs := logs0 ++ ["Request failed: " ++ msg],
            outputs := { nodes := [], outputs := emptyDict, status := "error",
                         message := msg } }
    else .error (.validationError "NodeExecutionData: field required: code")

/-! ## FlowControlBlock (controlunit/fcb/flow_control_block.py) -/

/-- `BlockStatus` (flow_control_block.py lines 62-66). -/
inductive BlockStatus : Type where
  | QUEUED
  | START
  | PAUSE
  | STOP
deriving DecidableEq, Repr

/-- Side effects performed by FCB methods through their callbacks: a
submission of `_run_node` to the thread pool, an invocation of
`save_state_hook`, an invocation of `stop_hook`, and a trace POST carrying
`result.status` and `result.outputs.status` (flow_control_block.py lines
114-127). -/
inductive Effect : Type where
  | submit
  | saveState
  | stopHook
  | trace (status : String) (outputs_status : String)
deriving DecidableEq, Repr

/-- `FlowControlBlock` in-memory state (flow_control_block.py lines
68-77): the flow, the id, the pending `node_exec_queue`, and the status.
The thread pool and the two hooks are modelled as effects. -/
structure FCB : Type where
  flow : Flow
  flow_id : String
  node_exec_queue : List (Node × PyObj)
  status : BlockStatus

/-- `FlowControlBlock.stop` (lines 84-88): sets status to `STOP`.  The
call `self.stop_hook(self.flow_id)` on line 87 is commented out in the
source, so no effect reaches the queue or the durable store. -/
def FCB.stop (b : FCB) : FCB := { b with status := .STOP }

/-- `FlowControlBlock.pause` (lines 90-92): sets status to `PAUSE`
unconditionally. -/
def FCB.pause (b : FCB) : FCB := { b with status := .PAUSE }

/-- `FlowControlBlock.exec` (lines 133-138): submit the next `_run_node`
to the thread pool unless status is `PAUSE` or `STOP`. -/
def FCB.exec (b : FCB) : FCB × List Effect :=
  if b.status = .PAUSE ∨ b.status = .STOP then (b, []) else (b, [.submit])

/-- `FlowControlBlock.start` (lines 79-82): sets status to `START`
unconditionally, then calls `exec`. -/
def FCB.start (b : FCB) : FCB × List Effect :=
  FCB.exec { b with status := .START }

/-- `FlowControlBlock.resumse` (lines 94-98; the method name carries this
spelling in the source): if paused, set `START` and call `exec`; otherwise
do nothing. -/
def FCB.resumse (b : FCB) : FCB × List Effect :=
  if b.status = .PAUSE then FCB.exec { b with status := .START } else (b, [])

/-- The successor loop of `exec_hook` (lines 144-149): walk
`result.outputs.nodes` in order, appending `(flow.nodes[name], outputs)`
to the queue for each known name; at the first unknown name the loop
raises `ValueError`, leaving the entries appended so far in place.
Returns the queue after the loop together with the first unknown name, if
any. -/
def enqueueLoop (flowNodes : List (String × Node)) (outs : PyObj) :
    List String → List (Node × PyObj) → List (Node × PyObj) × Option String
  | [], acc => (acc, none)
  | n :: rest, acc =>
    match alookup flowNodes n with
    | some node => enqueueLoop flowNodes outs rest (acc ++ [(node, outs)])
    | none => (acc, some n)

/-- `FlowControlBlock.exec_hook` (lines 140-170).  The whole body runs in
a `try`; any raise (the unknown-successor `ValueError` of line 149, or the
`ValueError` of `set_pointer`) is caught at line 167 and sets status to
`STOP` (the `stop_hook` call on line 170 is commented out).  Note that
neither `result.status` nor `result.outputs.status` is inspected. -/
def FCB.exec_hook (b : FCB) (result : NodeExecutionData) : FCB × List Effect :=
  match enqueueLoop b.flow.nodes result.outputs.outputs result.outputs.nodes
      b.node_exec_queue with
  | (q, some _unknown) => ({ b with node_exec_queue := q, status := .STOP }, [])
  | (q, none) =>
    match q with
    | [] => (FCB.stop { b with node_exec_queue := [] }, [])
    | (node, inp) :: q' =>
      match Flow.set_pointer b.flow node inp with
      | .error _ => ({ b with node_exec_queue := q', status := .STOP }, [])
      | .ok flow' =>
        let b' : FCB := { b with flow := flow', node_exec_queue := q' }
        let stepped := FCB.exec b'
        (stepped.1, Effect.saveState :: stepped.2)

/-- Outcome of the trace POST issued by `post_trace_request`
(flow_control_block.py lines 53-59), passed explicitly. -/
inductive TraceOutcome : Type where
  | success (resp : PyObj)
  | requestError (msg : String)

/-- `post_trace_request` (flow_control_block.py lines 16-59): returns the
response JSON on success and `None` on any `requests.RequestException`;
it never raises. -/
def post_trace_request : TraceOutcome → Option PyObj
  | .success r => some r
  | .requestError _ => none

/-- `FlowControlBlock._run_node` (lines 100-131): read the pointer; a
`None` pointer stops the flow.  Otherwise dispatch via `Node.run`, feed
the result to `exec_hook`, then POST the trace (whose return value is
discarded).  A raise out of `Node.run` is caught at line 128 and sets
status to `STOP` directly (no trace is posted in that case; the
`stop_hook` call on line 131 is commented out). -/
def FCB.run_node (b : FCB) (runner_id : String) (outcome : RunOutcome)
    (t : TraceOutcome) : FCB × List Effect :=
  match b.flow.curr_node with
  | none => (FCB.stop b, [])
  | some node =>
    match Node.run node b.flow.curr_inp_data runner_id outcome with
    | .error _ => ({ b with status := .STOP }, [])
    | .ok result =>
      let hooked := FCB.exec_hook b result
      let _resp := post_trace_request t
      (hooked.1, hooked.2 ++ [Effect.trace result.status result.outputs.status])

/-! ## FCB queue and durable store (controlunit/fcb_queue.py, main.py) -/

/-- `FlowControlBlockQueue` state: the in-memory registry `Blocks` and the
Mongo collection, modelled as a `flow_id`-keyed association list of
persisted flow documents (fcb_queue.py lines 15-22, 69-102). -/
structure QueueState : Type where
  Blocks : List (String × FCB)
  store : List (String × FlowDict)

/-- The method names defined on class `FlowControlBlock`
(flow_control_block.py).  There is no method named `resume`; the resume
method is spelled `resumse` (line 94). -/
def fcbMethodNames : List String :=
  ["__init__", "start", "stop", "pause", "resumse", "_run_node", "exec",
   "exec_hook", "get_save_state", "load_from_save_state"]

/-- Apply one callback effect to the queue state, as the hooks do
(fcb_queue.py lines 69-102): `save_state_hook` upserts
`Blocks[flow_id].flow.to_dict()` under the flow id (raising inside the
hook is caught and logged, so a missing id changes nothing);
`stop_hook` stops the block, removes it from `Blocks`, and deletes the
document; submissions and trace POSTs do not touch the queue state. -/
def applyEffect (q : QueueState) (fid : String) : Effect → QueueState
  | .saveState =>
    match alookup q.Blocks fid with
    | some b => { q with store := aupsert q.store fid (Flow.to_dict b.flow) }
    | none => q
  | .stopHook =>
    match alookup q.Blocks fid with
    | some _ => { Blocks := aremove q.Blocks fid, store := aremove q.store fid }
    | none => q
  | .submit => q
  | .trace _ _ => q

def applyEffects (q : QueueState) (fid : String) (effs : List Effect) : QueueState :=
  effs.foldl (fun acc e => applyEffect acc fid e) q

/-- One submitted `_run_node` invocation executing for flow `fid`: look up
the block, run the step, publish the mutated block, and perform the
callback effects in order. -/
def queueStep (q : QueueState) (fid runner_id : String) (outcome : RunOutcome)
    (t : TraceOutcome) : QueueState :=
  match alookup q.Blocks fid with
  | none => q
  | some b =>
    let stepped := FCB.run_node b runner_id outcome t
    applyEffects { q with Blocks := aupsert q.Blocks fid stepped.1 } fid stepped.2

/-- `FlowControlBlockQueue.stop_fcb` (fcb_queue.py lines 119-127): stop the
block, drop it from `Blocks`, and delete its durable document. -/
def stop_fcb (q : QueueState) (fid : String) : Except PyError QueueState :=
  match alookup q.Blocks fid with
  | none => .error (.valueError ("Flow " ++ fid ++ " not found"))
  | some _ => .ok { Blocks := aremove q.Blocks fid, store := aremove q.store fid }

/-- `FlowControlBlockQueue.pause_fcb` (lines 129-134). -/
def pause_fcb (q : QueueState) (fid : String) : Except PyError QueueState :=
  match alookup q.Blocks fid with
  | none => .error (.valueError ("Flow " ++ fid ++ " not found"))
  | some b => .ok { q with Blocks := aupsert q.Blocks fid (FCB.pause b) }

/-- `FlowControlBlockQueue.start_fcb` (lines 112-117). -/
def start_fcb (q : QueueState) (fid : String) :
    Except PyError (QueueState × List Effect) :=
  match alookup q.Blocks fid with
  | none => .error (.valueError ("Flow " ++ fid ++ " not found"))
  | some b =>
    let started := FCB.start b
    .ok ({ q with Blocks := aupsert q.Blocks fid started.1 }, started.2)

/-- `FlowControlBlockQueue.resume_fcb` (lines 136-141): looks up the block
and evaluates `fcb.resume()`.  Attribute lookup on the instance consults
the class's method names; since `FlowControlBlock` defines `resumse` but
no `resume`, the call raises `AttributeError` (which `resume_fcb` does not
catch).  The branch below shows what the call would do if the attribute
existed. -/
def resume_fcb (q : QueueState) (fid : String) :
    Except PyError (QueueState × List Effect) :=
  match alookup q.Blocks fid with
  | none => .error (.valueError ("Flow " ++ fid ++ " not found"))
  | some b =>
    if fcbMethodNames.contains "resume" then
      let resumed := FCB.resumse b
      .ok ({ q with Blocks := aupsert q.Blocks fid resumed.1 }, resumed.2)
    else
      .error (.attributeError "FlowControlBlock object has no attribute resume")

/-! ## /fcb/add construction (FlowKitControlUint/main.py) -/

/-- `NodeDTO` request model (main.py lines 19-22). -/
structure NodeDTO : Type where
  name : String
  code : String
  flow_lvl : Int
deriving DecidableEq, Repr

/-- `AddFCBRequest` (main.py lines 24-27): `curr_node` is a required
field of the request model. -/
structure AddFCBRequest : Type where
  nodes : List (String × NodeDTO)
  curr_inp : PyObj
  curr_node : NodeDTO

def nodeOfDTO (d : NodeDTO) : Node := ⟨d.name, d.code, d.flow_lvl⟩

/-- The `Flow` constructed by the `/fcb/add` handler (main.py lines
62-66).  `curr_node` is a required pydantic field, hence always truthy,
so the conditional on line 65 always takes the `Node(...)` branch.  No
membership check relates `curr_node` to `nodes`. -/
def flowOfAddRequest (r : AddFCBRequest) : Flow :=
  { nodes := r.nodes.map (fun p => (p.1, nodeOfDTO p.2)),
    curr_inp_data := r.curr_inp,
    curr_node := some (nodeOfDTO r.curr_node) }

/-! ## Trace recorder (FlowTraceMonitor/main.py) -/

/-- Trace-recorder state: the in-memory per-flow counter `flow_registry`
(main.py lines 50-51) and the persisted trace records, of which we keep
the `(flow_id, current_sequence)` pair of each inserted record in
insertion order (lines 96-104). -/
structure TraceState : Type where
  flow_registry : List (String × Nat)
  traces : List (String × Nat)

/-- `save_trace` (FlowTraceMonitor/main.py lines 80-112): increment (or
initialise to 1) the in-memory counter for `flow_id`, stamp the record
with it as `current_sequence`, and insert the record.  Returns the new
state and the assigned sequence. -/
def save_trace (s : TraceState) (fid : String) : TraceState × Nat :=
  let n := (alookup s.flow_registry fid).getD 0 + 1
  ({ flow_registry := aupsert s.flow_registry fid n,
     traces := s.traces ++ [(fid, n)] }, n)

/-- A restart of the Trace Recorder process: `flow_registry` is a plain
module-level dict, so it resets to empty, while the Mongo trace
collection persists. -/
def restartRecorder (s : TraceState) : TraceState :=
  { flow_registry := [], traces := s.traces }

/-- The `current_sequence` values persisted for a flow, in insertion
order. -/
def seqsFor (s : TraceState) (fid : String) : List Nat :=
  (s.traces.filter (fun p => p.1 = fid)).map (fun p => p.2)

/-- The in-memory counter value for a flow (`flow_registry.get(fid, 0)`). -/
def regCount (s : TraceState) (fid : String) : Nat :=
  (alookup s.flow_registry fid).getD 0

/-! ## Secret resolver (NodeRunner/node_runner/task_manager/node.py) -/

/-- The literal opener of a secret placeholder (the pattern is
`\x7b\x7b\x7bsecret::(.*?)\x7d\x7d\x7d`, node.py line 40). -/
def secretOpen : List Char := "\x7b\x7b\x7bsecret::".toList

/-- The literal closer of a secret placeholder. -/
def secretClose : List Char := "\x7d\x7d\x7d".toList

/-- The lazy capture `(.*?)\x7d\x7d\x7d` of the pattern, starting right
after the opener: consume characters (`.` does not match a newline) until
the first occurrence of the closer; return the captured key and the text
after the closer, or `none` when the match fails at this position. -/
def takeUntilClose : List Char → Option (List Char × List Char)
  | [] => none
  | c :: rest =>
    if List.isPrefixOf secretClose (c :: rest) then
      some ([], rest.drop 2)
    else if c = '\x0a' then none
    else
      match takeUntilClose rest with
      | some (key, rem) => some (c :: key, rem)
      | none => none

theorem takeUntilClose_length_le :
    ∀ l key rem, takeUntilClose l = some (key, rem) → rem.length ≤ l.length := by
  intro l
  induction l with
  | nil => intro key rem h; simp [takeUntilClose] at h
  | cons c rest ih =>
    intro key rem h
    rw [takeUntilClose] at h
    split at h
    · simp only [Option.some.injEq, Prod.mk.injEq] at h
      obtain ⟨h1, h2⟩ := h
      subst h2
      simp only [List.length_drop, List.length_cons]
      omega
    · split at h
      · simp at h
      · split at h
        · rename_i k r hrec
          simp only [Option.some.injEq, Prod.mk.injEq] at h
          obtain ⟨h1, h2⟩ := h
          subst h2
          have hlen := ih k r hrec
          simp only [List.length_cons]
          omega
        · simp at h

/-- `re.findall` of the pattern over a text (node.py lines 40-41): scan
left to right; at a position where the opener matches, complete the lazy
capture; on success emit the key and continue after the whole match
(matches are non-overlapping), on failure advance one character. -/
def findKeys (l : List Char) : List String :=
  match l with
  | [] => []
  | c :: rest =>
    if List.isPrefixOf secretOpen (c :: rest) then
      match h2 : takeUntilClose ((c :: rest).drop 11) with
      | some (key, rem) => String.mk key :: findKeys rem
      | none => findKeys rest
    else findKeys rest
termination_by l.length
decreasing_by
  · have hle := takeUntilClose_length_le _ _ _ h2
    simp only [List.length_drop, List.length_cons] at hle ⊢
    omega
  · simp
  · simp

/-- Python `str.replace(pat, rep)`: replace every non-overlapping
occurrence of `pat`, scanning left to right; the inserted replacement is
not rescanned.  (`pat` is never empty at the call sites: it is a full
placeholder literal.) -/
def replaceAll (s pat rep : List Char) : List Char :=
  match s with
  | [] => []
  | c :: rest =>
    if pat.length > 0 ∧ List.isPrefixOf pat (c :: rest) then
      rep ++ replaceAll ((c :: rest).drop pat.length) pat rep
    else
      c :: replaceAll rest pat rep
termination_by s.length
decreasing_by
  · rename_i hcond
    simp only [List.length_drop, List.length_cons]
    omega
  · simp

/-- The placeholder literal `"\x7b\x7b\x7bsecret::" + key + "\x7d\x7d\x7d"`
used on node.py line 56. -/
def secretPat (key : String) : List Char :=
  secretOpen ++ key.toList ++ secretClose

/-- `Node.resolve_secrets` (node.py lines 34-57) against a secret store
(`GET /get/KEY`, modelled as a partial map; `none` is a non-200
response).  One `findall` pass over the original text collects the keys;
then, for each key in order, the value is fetched (`ValueError` on a
non-200 or an empty value) and every occurrence of that key's placeholder
in the *current* text is replaced. -/
def resolve_secrets (store : String → Option String) (text : String) :
    Except String String :=
  let keys := findKeys text.toList
  (keys.foldlM (fun t key =>
      match store key with
      | none => Except.error ("Failed to fetch secret: " ++ key)
      | some v =>
        if v = "" then Except.error ("Secret not found or empty: " ++ key)
        else Except.ok (replaceAll t (secretPat key) v.toList))
    text.toList).map String.mk

/-- Modelled from the spec: the fixed point of one simultaneous pass, in
which every placeholder occurrence present in the original text is
replaced by its fetched value and fetched values are never rescanned or
re-resolved ("the text produced must be the fixed point of one pass").
Used only to compare the source behaviour against the claimed one. -/
def resolveSecretsOnePass (store : String → Option String) :
    List Char → Except String (List Char)
  | [] => .ok []
  | c :: rest =>
    if List.isPrefixOf secretOpen (c :: rest) then
      match h2 : takeUntilClose ((c :: rest).drop 11) with
      | some (key, rem) =>
        match store (String.mk key) with
        | none => .error ("Failed to fetch secret: " ++ String.mk key)
        | some v =>
          if v = "" then .error ("Secret not found or empty: " ++ String.mk key)
          else (resolveSecretsOnePass store rem).map (fun r => v.toList ++ r)
      | none => (resolveSecretsOnePass store rest).map (fun r => c :: r)
    else (resolveSecretsOnePass store rest).map (fun r => c :: r)
termination_by l => l.length
decreasing_by
  · have hle := takeUntilClose_length_le _ _ _ h2
    simp only [List.length_drop, List.length_cons] at hle ⊢
    omega
  · simp
  · simp

/-! ## General lemmas about the dict model -/

theorem alookup_aupsert_self {α : Type} (l : List (String × α)) (k : String) (v : α) :
    alookup (aupsert l k v) k = some v := by
  induction l with
  | nil => simp [aupsert, alookup]
  | cons p rest ih =>
    obtain ⟨k', w⟩ := p
    by_cases h : k' = k <;> simp [aupsert, alookup, h, ih]

theorem alookup_eq_none_of_not_mem {α : Type} (l : List (String × α)) (k : String)
    (h : k ∉ l.map Prod.fst) : alookup l k = none := by
  induction l with
  | nil => rfl
  | cons p rest ih =>
    obtain ⟨k', w⟩ := p
    simp only [List.map_cons, List.mem_cons] at h
    push_neg at h
    simp only [alookup]
    rw [if_neg (fun hk : k' = k => h.1 hk.symm)]
    exact ih h.2

theorem alookup_aremove_self {α : Type} (l : List (String × α)) (k : String)
    (h : (l.map Prod.fst).Nodup) : alookup (aremove l k) k = none := by
  induction l with
  | nil => rfl
  | cons p rest ih =>
    obtain ⟨k', w⟩ := p
    simp only [List.map_cons, List.nodup_cons] at h
    by_cases hk : k' = k
    · subst hk
      simpa [aremove] using alookup_eq_none_of_not_mem rest k' h.1
    · simp [aremove, alookup, hk, ih h.2]

/-! ## Lemmas about the step machinery -/

/-- The effects emitted by one `exec_hook` call: nothing, or a checkpoint,
or a checkpoint followed by a submission.  In particular `stop_hook` is
never invoked. -/
theorem exec_hook_effects (b : FCB) (r : NodeExecutionData) :
    (FCB.exec_hook b r).2 = [] ∨ (FCB.exec_hook b r).2 = [Effect.saveState] ∨
    (FCB.exec_hook b r).2 = [Effect.saveState, Effect.submit] := by
  unfold FCB.exec_hook
  split
  · left; rfl
  · split
    · left; rfl
    · split
      · left; rfl
      · unfold FCB.exec
        dsimp only
        split
        · right; left; rfl
        · right; right; rfl

/-- `_run_node` never invokes `stop_hook` (its calls are commented out in
the source): the only effects are checkpoints, submissions and the trace
POST. -/
theorem run_node_no_stop_hook (b : FCB) (rid : String) (o : RunOutcome)
    (t : TraceOutcome) : Effect.stopHook ∉ (FCB.run_node b rid o t).2 := by
  unfold FCB.run_node
  split
  · simp
  · split
    · simp
    · rename_i result heq
      rcases exec_hook_effects b result with h | h | h <;> simp [h]

theorem applyEffect_preserves_store (q : QueueState) (fid : String) (e : Effect)
    (he : e ≠ Effect.stopHook) (h : (alookup q.store fid).isSome = true) :
    (alookup (applyEffect q fid e).store fid).isSome = true := by
  cases e with
  | submit => exact h
  | trace s os => exact h
  | stopHook => exact absurd rfl he
  | saveState =>
    unfold applyEffect
    cases alookup q.Blocks fid with
    | none => exact h
    | some b => simp [alookup_aupsert_self]

theorem applyEffects_preserves_store (fid : String) (effs : List Effect)
    (he : Effect.stopHook ∉ effs) :
    ∀ q : QueueState, (alookup q.store fid).isSome = true →
      (alookup (applyEffects q fid effs).store fid).isSome = true := by
  induction effs with
  | nil => intro q h; exact h
  | cons e rest ih =>
    intro q h
    simp only [List.mem_cons] at he
    push_neg at he
    exact ih he.2 (applyEffect q fid e)
      (applyEffect_preserves_store q fid e (Ne.symm he.1) h)

/-! ## Concrete fixtures used by the per-claim theorems -/

def nodeA : Node := ⟨"A", "codeA", 0⟩

def nodeB : Node := ⟨"B", "codeB", 0⟩

/-- A one-node flow positioned at `A`, running. -/
def fcbA : FCB :=
  { flow := { nodes := [("A", nodeA)], curr_inp_data := emptyDict, curr_node := some nodeA },
    flow_id := "f", node_exec_queue := [], status := .START }

/-- A queue holding `fcbA` with its durable document present. -/
def queueA : QueueState :=
  { Blocks := [("f", fcbA)], store := [("f", Flow.to_dict fcbA.flow)] }

/-- A dispatch result succeeding with no successors (`outputs.nodes = []`). -/
def outcomeNoSucc : RunOutcome :=
  .success { nodes := [], outputs := emptyDict, status := "SUCCESS", message := "done" }

/-! ## C1 — stop and the durable store -/

/-- C1 (counterexample): a flow that reaches `STOP` because its last node
returned `outputs.nodes = []` keeps its durable document: after the step,
the block's status is `STOP` yet the document is still in the store, so
the claim that every flow reaching `STOP` has its document deleted is
false.  (`FlowControlBlock.stop` does not call `stop_hook`; the call is
commented out.) -/
theorem c1_stop_deletion_counterexample :
    ((alookup (queueStep queueA "f" "r" outcomeNoSucc (.success .null)).Blocks "f").map
        FCB.status = some .STOP) ∧
    (alookup (queueStep queueA "f" "r" outcomeNoSucc (.success .null)).store "f").isSome
      = true := by
  decide

/-- C1 (amended): a step of the engine — whatever its outcome, including
the paths that transition the FCB to `STOP` (end of flow, empty
`outputs.nodes`, step failure) — never deletes the flow's durable
document; the document is deleted only by `stop_fcb` / `stop_hook`, the
explicit queue-level stop. -/
theorem c1_internal_stop_keeps_document (q : QueueState) (fid rid : String)
    (outcome : RunOutcome) (t : TraceOutcome)
    (hmem : (alookup q.store fid).isSome = true)
    (hnodup : (q.store.map Prod.fst).Nodup) :
    (alookup (queueStep q fid rid outcome t).store fid).isSome = true ∧
    (∀ q', stop_fcb q fid = Except.ok q' → alookup q'.store fid = none) := by
  constructor
  · unfold queueStep
    cases hb : alookup q.Blocks fid with
    | none => exact hmem
    | some b =>
      exact applyEffects_preserves_store fid _ (run_node_no_stop_hook b rid outcome t)
        _ hmem
  · intro q' hq'
    unfold stop_fcb at hq'
    cases hb : alookup q.Blocks fid with
    | none => rw [hb] at hq'; exact absurd hq' (by simp)
    | some b =>
      rw [hb] at hq'
      simp only [Except.ok.injEq] at hq'
      subst hq'
      exact alookup_aremove_self q.store fid hnodup

theorem c1_internal_stop_keeps_document_witness :
    ((alookup queueA.store "f").isSome = true ∧ (queueA.store.map Prod.fst).Nodup) ∧
    ((alookup (queueStep queueA "f" "r" outcomeNoSucc (.success .null)).store "f").isSome
        = true ∧
      (∀ q', stop_fcb queueA "f" = Except.ok q' → alookup q'.store "f" = none)) :=
  ⟨⟨by decide, by decide⟩,
    c1_internal_stop_keeps_document queueA "f" "r" outcomeNoSucc (.success .null)
      (by decide) (by decide)⟩

/-! ## C2 — resume -/

/-- A paused copy of `fcbA` and a queue holding it. -/
def fcbPaused : FCB := { fcbA with status := .PAUSE }

def queuePaused : QueueState :=
  { Blocks := [("f", fcbPaused)], store := [("f", Flow.to_dict fcbPaused.flow)] }

/-- C2 (code bug): the queue's resume operation evaluates `fcb.resume()`,
but the class defines the method under the name `resumse`, so the call
raises `AttributeError` for every FCB — a paused flow cannot actually be
resumed through `resume_fcb`.  The method `resumse` itself has exactly
the claimed semantics: on `PAUSE` it moves to `START` and submits exactly
one step; on a non-paused block it is a no-op. -/
theorem c2_resume_attribute_error :
    resume_fcb queuePaused "f"
      = .error (.attributeError "FlowControlBlock object has no attribute resume") ∧
    FCB.resumse fcbPaused = ({ fcbPaused with status := .START }, [Effect.submit]) ∧
    FCB.resumse fcbA = (fcbA, []) ∧
    FCB.resumse { fcbA with status := .STOP } = ({ fcbA with status := .STOP }, []) ∧
    FCB.resumse { fcbA with status := .QUEUED } = ({ fcbA with status := .QUEUED }, []) :=
  ⟨rfl, rfl, rfl, rfl, rfl⟩

/-! ## C4 — transport failures in Node.run -/

/-- C4 (code bug): on a transport failure (`httpx.RequestError`, e.g. an
unreachable host or a timeout) or a non-2xx response
(`httpx.HTTPStatusError`), `Node.run` does not return a `"failed"`
`NodeExecutionData`: its failure construction sites pass the keyword
`code_base64` where the pydantic model requires the field `code`, so
construction raises `ValidationError` and `Node.run` raises.  The raise
is caught by `_run_node`, which stops the FCB — but without emitting a
trace. -/
theorem c4_transport_failure_raises :
    Node.run nodeA emptyDict "r" (.requestError "Connection refused")
      = .error (.validationError "NodeExecutionData: field required: code") ∧
    Node.run nodeA emptyDict "r" (.httpStatusError 500 "Internal Server Error")
      = .error (.validationError "NodeExecutionData: field required: code") ∧
    pydanticAccepts runFailureKwargs = false ∧
    pydanticAccepts runSuccessKwargs = true ∧
    (FCB.run_node fcbA "r" (.requestError "timeout") (.success .null)).1.status = .STOP ∧
    (FCB.run_node fcbA "r" (.requestError "timeout") (.success .null)).2 = [] :=
  ⟨rfl, rfl, rfl, rfl, rfl, rfl⟩

/-! ## C10 — trace failures never affect the flow -/

/-- C10: the FCB state after a step is identical whatever the outcome of
the trace POST: `post_trace_request` returns `None` instead of raising on
a request error, and `_run_node` discards its return value. -/
theorem c10_trace_failure_frame (b : FCB) (rid : String) (o : RunOutcome)
    (t₁ t₂ : TraceOutcome) (msg : String) :
    FCB.run_node b rid o t₁ = FCB.run_node b rid o t₂ ∧
    post_trace_request (.requestError msg) = none :=
  ⟨rfl, rfl⟩

/-! ## C3 — step-failure handling -/

/-- A two-node flow positioned at `A`, running, empty pending queue. -/
def fcbAB : FCB :=
  { flow := { nodes := [("A", nodeA), ("B", nodeB)], curr_inp_data := emptyDict,
              curr_node := some nodeA },
    flow_id := "f", node_exec_queue := [], status := .START }

/-- A 2xx dispatch whose outputs carry `status = "error"` but also name a
valid successor. -/
def outcomeErrWithSucc : RunOutcome :=
  .success { nodes := ["B"], outputs := emptyDict, status := "error", message := "boom" }

/-- C3 (counterexample): a step whose output `status` is `"error"` but
whose `outputs.nodes` names a valid successor does NOT transition the FCB
to `STOP`: the successor is enqueued, the pointer advances to it, and the
next step is submitted — the status fields are never inspected.  This
refutes the claim that such a step stops the flow regardless of
`outputs.nodes`. -/
theorem c3_error_status_counterexample :
    (FCB.run_node fcbAB "r" outcomeErrWithSucc (.success .null)).1.status = .START ∧
    Effect.submit ∈ (FCB.run_node fcbAB "r" outcomeErrWithSucc (.success .null)).2 ∧
    ((FCB.run_node fcbAB "r" outcomeErrWithSucc (.success .null)).1.flow.curr_node).map
        Node.name = some "B" := by
  decide

/-- C3 (amended): `exec_hook` never inspects `result.status`,
`result.outputs.status` or `result.outputs.message` — the step outcome is
processed solely through `outputs.nodes` and the pending queue.  When a
2xx dispatch reports an error output with no successors and the pending
queue is empty, the FCB emits the trace (carrying the output status) and
transitions to `STOP`, enqueuing nothing and submitting no further step
(no retry).  (A transport failure never reaches `exec_hook`: `Node.run`
raises — see the C4 theorem.) -/
theorem c3_failure_semantics (b : FCB) (r : NodeExecutionData)
    (s₁ s₂ os₁ os₂ m₁ m₂ : String) (node : Node) (rid : String) (t : TraceOutcome)
    (outs : NodeOutputs)
    (hnode : b.flow.curr_node = some node)
    (hq : b.node_exec_queue = [])
    (hnodes : outs.nodes = []) :
    FCB.exec_hook b
        { r with status := s₁,
                 outputs := { nodes := r.outputs.nodes, outputs := r.outputs.outputs,
                              status := os₁, message := m₁ } }
      = FCB.exec_hook b
        { r with status := s₂,
                 outputs := { nodes := r.outputs.nodes, outputs := r.outputs.outputs,
                              status := os₂, message := m₂ } } ∧
    FCB.run_node b rid (.success outs) t
      = ({ b with node_exec_queue := [], status := .STOP },
         [Effect.trace "success" outs.status]) := by
  constructor
  · rfl
  · simp [FCB.run_node, Node.run, hnode, FCB.exec_hook, hnodes, hq, enqueueLoop,
      FCB.stop, pydanticAccepts, runSuccessKwargs, nedRequiredFields]

/-- C3 witness: the amended failure semantics at a concrete block whose
dispatch returns an error output with no successors. -/
theorem c3_failure_semantics_witness :
    (fcbA.flow.curr_node = some nodeA ∧ fcbA.node_exec_queue = [] ∧
      (NodeOutputs.mk [] emptyDict "error" "boom").nodes = []) ∧
    FCB.run_node fcbA "r" (.success (NodeOutputs.mk [] emptyDict "error" "boom"))
        (.success .null)
      = ({ fcbA with node_exec_queue := [], status := .STOP },
         [Effect.trace "success" (NodeOutputs.mk [] emptyDict "error" "boom").status]) :=
  ⟨⟨rfl, rfl, rfl⟩,
    (c3_failure_semantics fcbA
      { node_name := "A", runner_id := "r", code := "codeA", status := "success",
        inputs := emptyDict, logs := [],
        outputs := NodeOutputs.mk [] emptyDict "SUCCESS" "ok" }
      "s" "s" "o" "o" "m" "m" nodeA "r" (.success .null)
      (NodeOutputs.mk [] emptyDict "error" "boom") rfl rfl rfl).2⟩

/-! ## C5 — unknown successor names -/

/-- A dispatch result naming the valid successor `B` before the unknown
name `X`. -/
def resultBX : NodeExecutionData :=
  { node_name := "A", runner_id := "r", code := "codeA", status := "success",
    inputs := emptyDict, logs := [],
    outputs := { nodes := ["B", "X"], outputs := emptyDict, status := "SUCCESS",
                 message := "ok" } }

/-- C5 (counterexample): when `outputs.nodes = ["B", "X"]` with `B` known
and `X` unknown, the FCB does transition to `STOP`, but the pending queue
has gained the entry for `B`: the entries for names preceding the unknown
name remain appended, refuting "the pending queue gains no entries from
that result". -/
theorem c5_prefix_queued_counterexample :
    (FCB.exec_hook fcbAB resultBX).1.status = .STOP ∧
    (FCB.exec_hook fcbAB resultBX).1.node_exec_queue.map (fun e => e.1.name) = ["B"] ∧
    (FCB.exec_hook fcbAB resultBX).1.node_exec_queue.length = 1 ∧
    (FCB.exec_hook fcbAB resultBX).2 = [] := by
  decide

theorem enqueueLoop_acc_extends (fn : List (String × Node)) (outs : PyObj) :
    ∀ (names : List String) (acc : List (Node × PyObj)),
      ∃ extra, (enqueueLoop fn outs names acc).1 = acc ++ extra := by
  intro names
  induction names with
  | nil => intro acc; exact ⟨[], by simp [enqueueLoop]⟩
  | cons n rest ih =>
    intro acc
    unfold enqueueLoop
    cases h : alookup fn n with
    | none => exact ⟨[], by simp⟩
    | some node =>
      obtain ⟨extra, hx⟩ := ih (acc ++ [(node, outs)])
      exact ⟨(node, outs) :: extra, by simp [hx]⟩

/-- C5 (amended): if the successor loop meets an unknown name, the FCB
transitions to `STOP` with no checkpoint and no further submission, and
no successor is executed — but the pending queue retains the entries
appended for the names that precede the unknown name: it extends the old
queue instead of gaining no entries. -/
theorem c5_unknown_successor_stops (b : FCB) (r : NodeExecutionData)
    (q : List (Node × PyObj)) (name : String)
    (h : enqueueLoop b.flow.nodes r.outputs.outputs r.outputs.nodes b.node_exec_queue
          = (q, some name)) :
    FCB.exec_hook b r = ({ b with node_exec_queue := q, status := .STOP }, []) ∧
    ∃ extra, q = b.node_exec_queue ++ extra := by
  constructor
  · unfold FCB.exec_hook
    rw [h]
  · obtain ⟨extra, hx⟩ :=
      enqueueLoop_acc_extends b.flow.nodes r.outputs.outputs r.outputs.nodes
        b.node_exec_queue
    rw [h] at hx
    exact ⟨extra, hx⟩

/-- C5 witness: the amended unknown-successor behaviour at the concrete
two-node flow and the result `["B", "X"]`. -/
theorem c5_unknown_successor_stops_witness :
    (enqueueLoop fcbAB.flow.nodes resultBX.outputs.outputs resultBX.outputs.nodes
        fcbAB.node_exec_queue = ([(nodeB, emptyDict)], some "X")) ∧
    (FCB.exec_hook fcbAB resultBX
        = ({ fcbAB with node_exec_queue := [(nodeB, emptyDict)], status := .STOP }, []) ∧
      ∃ extra, [(nodeB, emptyDict)] = fcbAB.node_exec_queue ++ extra) :=
  ⟨rfl, c5_unknown_successor_stops fcbAB resultBX [(nodeB, emptyDict)] "X" rfl⟩

/-! ## C6 — secret resolution is one findall pass -/

/-- A secret store in which the value of `A` is itself the placeholder of
`B`. -/
def c6Store : String → Option String := fun k =>
  if k = "A" then some "\x7b\x7b\x7bsecret::B\x7d\x7d\x7d"
  else if k = "B" then some "x" else none

/-- Text holding the placeholders of both `A` and `B`. -/
def c6Text : String :=
  "\x7b\x7b\x7bsecret::A\x7d\x7d\x7d-\x7b\x7b\x7bsecret::B\x7d\x7d\x7d"

/-- C6 (counterexample): when the fetched value of key `A` contains the
placeholder of key `B` and `B` occurs later in the original text, the
resolver produces `"x-x"`: the placeholder inside the substituted value
of `A` WAS replaced when `B`'s turn came (a global
`str.replace` over the current text).  The claimed never-re-resolved,
one-simultaneous-pass result is the distinct text
`"\x7b\x7b\x7bsecret::B\x7d\x7d\x7d-x"`. -/
theorem c6_rescan_counterexample :
    resolve_secrets c6Store c6Text = .ok "x-x" ∧
    resolveSecretsOnePass c6Store c6Text.toList
      = .ok "\x7b\x7b\x7bsecret::B\x7d\x7d\x7d-x".toList ∧
    ("x-x" : String) ≠ "\x7b\x7b\x7bsecret::B\x7d\x7d\x7d-x" := by
  refine ⟨?_, ?_, by decide⟩
  · simp [resolve_secrets, findKeys, takeUntilClose, replaceAll, secretOpen,
      secretClose, secretPat, c6Store, c6Text, bind, Except.bind, Except.map, pure,
      Except.pure]
  · simp [resolveSecretsOnePass, takeUntilClose, secretOpen, secretClose, c6Store,
      c6Text, Except.map]

/-- C6 (amended): the resolver performs exactly one `findall` pass over
the *original* text to collect the keys; the fetched values are never
rescanned for new keys — the result depends only on the store's values at
the keys matched in the original text.  (What the original claim got
wrong: each key's placeholder is then replaced *globally in the current
text*, so a placeholder that an earlier substitution introduced is still
replaced when its key also occurs in the original match list — see the
counterexample.) -/
theorem c6_single_findall_pass (store₁ store₂ : String → Option String)
    (text : String)
    (h : ∀ k ∈ findKeys text.toList, store₁ k = store₂ k) :
    resolve_secrets store₁ text = resolve_secrets store₂ text := by
  unfold resolve_secrets
  have main : ∀ (keys : List String) (t : List Char),
      (∀ k ∈ keys, store₁ k = store₂ k) →
      (List.foldlM (fun t key =>
          match store₁ key with
          | none => Except.error ("Failed to fetch secret: " ++ key)
          | some v =>
            if v = "" then Except.error ("Secret not found or empty: " ++ key)
            else Except.ok (replaceAll t (secretPat key) v.toList)) t keys :
        Except String (List Char))
      = List.foldlM (fun t key =>
          match store₂ key with
          | none => Except.error ("Failed to fetch secret: " ++ key)
          | some v =>
            if v = "" then Except.error ("Secret not found or empty: " ++ key)
            else Except.ok (replaceAll t (secretPat key) v.toList)) t keys := by
    intro keys
    induction keys with
    | nil => intro t _; rfl
    | cons k ks ih =>
      intro t hk
      simp only [List.foldlM_cons]
      rw [hk k (List.mem_cons_self k ks)]
      cases store₂ k with
      | none => rfl
      | some v =>
        by_cases hv : v = ""
        · subst hv
          rfl
        · simp only [hv, if_neg, bind, Except.bind]
          exact ih _ (fun k' hk' => hk k' (List.mem_cons_of_mem k hk'))
  exact congrArg (Except.map String.mk) (main (findKeys text.toList) text.toList h)

/-- C6 witness: the amended one-pass property applied to a text with no
placeholder, for two stores that differ outside the matched keys. -/
theorem c6_single_findall_pass_witness :
    (∀ k ∈ findKeys ("plain text" : String).toList, c6Store k = (fun _ => none) k) ∧
    resolve_secrets c6Store "plain text" = resolve_secrets (fun _ => none) "plain text" := by
  have h : ∀ k ∈ findKeys ("plain text" : String).toList, c6Store k = (fun _ => none) k := by
    simp [findKeys, secretOpen, takeUntilClose]
  exact ⟨h, c6_single_findall_pass c6Store (fun _ => none) "plain text" h⟩

/-! ## C7 — trace sequence numbers -/

/-- C7 (counterexample): save a trace for flow `f`, restart the Trace
Recorder (the in-memory `flow_registry` resets, the Mongo collection
persists), save another trace for `f`: the persisted `current_sequence`
values are `[1, 1]` — not the gapless `1..2` the claim requires across
restarts. -/
theorem c7_restart_counterexample :
    seqsFor (save_trace (restartRecorder (save_trace ⟨[], []⟩ "f").1) "f").1 "f"
      = [1, 1] ∧
    ([1, 1] : List Nat) ≠ List.range' 1 2 := by
  decide

/-- C7 (amended): within a single recorder process lifetime the claim
holds: whenever the persisted sequences of a flow are exactly
`1..(registry count)`, one more `save_trace` for that flow assigns
`count + 1` and extends the persisted sequences to `1..(count + 1)`,
leaving every other flow's sequences unchanged.  (The registry is not
rebuilt from the store, so this is broken by a process restart — see the
counterexample.) -/
theorem c7_sequences_dense_per_run (s : TraceState) (fid : String)
    (h : seqsFor s fid = List.range' 1 (regCount s fid)) :
    (save_trace s fid).2 = regCount s fid + 1 ∧
    seqsFor (save_trace s fid).1 fid = List.range' 1 (regCount s fid + 1) ∧
    (∀ fid', fid' ≠ fid → seqsFor (save_trace s fid).1 fid' = seqsFor s fid') := by
  refine ⟨rfl, ?_, ?_⟩
  · unfold seqsFor save_trace
    simp only [List.filter_append, List.map_append]
    rw [List.range'_1_concat]
    have hfil : List.filter (fun p => decide (p.1 = fid))
        [(fid, (alookup s.flow_registry fid).getD 0 + 1)]
        = [(fid, (alookup s.flow_registry fid).getD 0 + 1)] := by simp
    rw [hfil]
    unfold seqsFor regCount at h
    rw [h]
    unfold regCount
    simp [Nat.add_comm]
  · intro fid' hne
    unfold seqsFor save_trace
    simp only [List.filter_append, List.map_append]
    have hfil : List.filter (fun p => decide (p.1 = fid'))
        [(fid, (alookup s.flow_registry fid).getD 0 + 1)] = [] := by
      simp [Ne.symm hne]
    rw [hfil]
    simp [seqsFor]

/-- C7 witness: the dense-sequence step at the empty recorder state. -/
theorem c7_sequences_dense_per_run_witness :
    (seqsFor ⟨[], []⟩ "f" = List.range' 1 (regCount ⟨[], []⟩ "f")) ∧
    ((save_trace ⟨[], []⟩ "f").2 = regCount ⟨[], []⟩ "f" + 1 ∧
      seqsFor (save_trace ⟨[], []⟩ "f").1 "f"
        = List.range' 1 (regCount ⟨[], []⟩ "f" + 1) ∧
      (∀ fid', fid' ≠ "f" →
        seqsFor (save_trace ⟨[], []⟩ "f").1 fid' = seqsFor ⟨[], []⟩ fid')) :=
  ⟨by decide, c7_sequences_dense_per_run ⟨[], []⟩ "f" (by decide)⟩

/-! ## C8 — terminality of STOP -/

/-- A stopped copy of `fcbA`. -/
def fcbStopped : FCB := { fcbA with status := .STOP }

/-- C8 (counterexample): `start` on a stopped FCB sets its status to
`START` (and submits a step), and `pause` on a stopped FCB sets `PAUSE`:
`STOP` is not terminal under `start` and `pause`, refuting the claim
that no operation changes the status of a stopped FCB. -/
theorem c8_start_after_stop_counterexample :
    (FCB.start fcbStopped).1.status = .START ∧
    (FCB.start fcbStopped).2 = [Effect.submit] ∧
    (FCB.pause fcbStopped).status = .PAUSE ∧
    BlockStatus.START ≠ BlockStatus.STOP := by
  decide

/-- C8 (amended): `STOP` is terminal for `resumse`, for the step
dispatcher `exec` (which is how step events reach a block), and for
`stop` itself — but `start` and `pause` assign the status
unconditionally, so `start` restarts a stopped block and `pause` moves it
to `PAUSE`. -/
theorem c8_stop_terminal_qualified (b : FCB) (h : b.status = .STOP) :
    FCB.resumse b = (b, []) ∧ FCB.exec b = (b, []) ∧ FCB.stop b = b ∧
    (FCB.start b).1.status = .START ∧ (FCB.start b).2 = [Effect.submit] ∧
    (FCB.pause b).status = .PAUSE := by
  refine ⟨?_, ?_, ?_, rfl, rfl, rfl⟩
  · unfold FCB.resumse
    rw [if_neg (by rw [h]; exact fun hx => BlockStatus.noConfusion hx)]
  · unfold FCB.exec
    rw [if_pos (Or.inr h)]
  · cases b
    unfold FCB.stop
    simp_all

/-- C8 witness: the qualified terminality at the concrete stopped block. -/
theorem c8_stop_terminal_qualified_witness :
    fcbStopped.status = .STOP ∧
    (FCB.resumse fcbStopped = (fcbStopped, []) ∧ FCB.exec fcbStopped = (fcbStopped, []) ∧
      FCB.stop fcbStopped = fcbStopped ∧
      (FCB.start fcbStopped).1.status = .START ∧
      (FCB.start fcbStopped).2 = [Effect.submit] ∧
      (FCB.pause fcbStopped).status = .PAUSE) :=
  ⟨rfl, c8_stop_terminal_qualified fcbStopped rfl⟩

/-! ## C9 — the pointer invariant -/

/-- An `/fcb/add` request whose `curr_node` names `b`, which is not a key
of `nodes`. -/
def c9Req : AddFCBRequest :=
  { nodes := [("a", ⟨"a", "c", 0⟩)], curr_inp := emptyDict, curr_node := ⟨"b", "c", 0⟩ }

/-- C9 (counterexample): the `/fcb/add` handler constructs the `Flow`
without checking that `curr_node.name` is a key of `nodes`, so a request
pointing at an absent node produces a `Flow` violating the pointer
invariant, refuting the claim that every constructed flow satisfies it. -/
theorem c9_add_fcb_counterexample :
    flowInvB (flowOfAddRequest c9Req) = false := by
  rfl

theorem nodes_roundtrip :
    ∀ l : List (String × Node),
      l.map (fun p => (p.1, nodeOfDict (Node.to_dict p.2))) = l := by
  intro l
  induction l with
  | nil => rfl
  | cons p rest ih =>
    rw [List.map_cons, ih]
    exact rfl

/-- Serialising a flow and reconstructing it (checkpoint followed by
recovery) gives the flow back, field for field. -/
theorem flow_roundtrip (f : Flow) : flowOfDict (Flow.to_dict f) = f := by
  cases f with
  | mk nodes inp cn =>
    unfold flowOfDict Flow.to_dict
    simp only [List.map_map]
    congr 1
    · exact nodes_roundtrip nodes
    · cases cn <;> rfl

/-- C9 (amended): the pointer invariant is established by `set_pointer`
(which raises on a name absent from `nodes`) and is preserved by the
checkpoint/recovery round trip — but it is NOT established by the
`/fcb/add` construction, which performs no check (see the
counterexample). -/
theorem c9_pointer_invariant (f f' : Flow) (n : Node) (inp : PyObj)
    (hset : Flow.set_pointer f n inp = Except.ok f') :
    flowInvB f' = true ∧
    (flowInvB f = true → flowInvB (flowOfDict (Flow.to_dict f)) = true) := by
  constructor
  · unfold Flow.set_pointer at hset
    split at hset
    · rename_i hmem
      simp only [Except.ok.injEq] at hset
      subst hset
      simpa [flowInvB] using hmem
    · exact absurd hset (by simp)
  · intro h
    rwa [flow_roundtrip]

/-- C9 witness: `set_pointer` to node `A` of the one-node flow succeeds
and the resulting flow satisfies the invariant. -/
theorem c9_pointer_invariant_witness :
    Flow.set_pointer fcbA.flow nodeA emptyDict = Except.ok fcbA.flow ∧
    (flowInvB fcbA.flow = true ∧
      (flowInvB fcbA.flow = true → flowInvB (flowOfDict (Flow.to_dict fcbA.flow)) = true)) :=
  ⟨rfl, c9_pointer_invariant fcbA.flow fcbA.flow nodeA emptyDict rfl⟩

end FlowKit


